import Mathlib

/-!
Verification development for the startup-exporter aggregation core.

The definitions below are a shallow embedding of the Go source in
`export.go` (together with the record type from `api.go`): the record
store ingestion handler `receiveStartupInfo`, the gating function
`shouldUpdate` with its helper `equal`, the aggregator `doUpdate`, and
the per-deployment body of the scheduler loop
(`updateDeployScaleLatency`, modelled as `schedulerStep`).

Modelling conventions:
* Go `int64` timestamps become `ℤ`; the Go constant `math.MaxInt64`
  is kept as the literal `2 ^ 63 - 1` (`maxInt64`).
* The Go `float64` accumulator `total` only ever holds sums of
  `int64` differences (`float64(info.End - info.Start)`), so it is
  modelled as `ℤ`; the published average `total / float64(receivedLen)`
  is modelled as the exact rational `(total : ℚ) / (receivedLen : ℚ)`.
  The claims under study are about exact values, not rounding.
* Go maps with `struct{}` values (`map[string]struct{}`) become
  `Finset String`; the global map `allInfo` becomes a function
  `meta → Option containerStartupInfo`; the per-deployment entry of
  `updatedDeploy` becomes an `Option (Finset String)`.
* A Go slice of pod pointers (`[]*corev1.Pod`) becomes
  `List (Option Pod)`; the source checks `p != nil` before using an
  entry, which the embedding mirrors.
* Prometheus gauge `Set` calls are modelled as the `Option`-valued
  outputs `avgWrite` / `scaleWrite` of `doUpdate` (`none` means the
  gauge is left untouched in that call).
-/

set_option autoImplicit false

namespace StartupExporter

/-- Go constant `defaultContainerdK8sNamespace` (export.go). -/
def defaultContainerdK8sNamespace : String := "k8s.io"

/-- Go constant `containerNamePrefix` (export.go): the transport
prefix carried by runtime container IDs. -/
def containerNamePrefix : String := "containerd://"

/-- Go constant `maxContainerNameLength` (export.go). -/
def maxContainerNameLength : Nat := 10

/-- Go `math.MaxInt64`, the initial value of `startTimestamp` in
`doUpdate`. -/
def maxInt64 : ℤ := 2 ^ 63 - 1

/-- Go struct `meta` (export.go): the identity key (name, namespace).
The Go field `namespace` is a Lean keyword and is rendered `nspace`. -/
structure meta where
  name : String
  nspace : String
deriving DecidableEq

/-- Go struct `containerStartupInfo` (api.go).  The Go field `type`
is a Lean builtin and is rendered `infoType`; the core never reads it. -/
structure containerStartupInfo where
  Name : String
  Namespace : String
  Start : ℤ
  End : ℤ
  infoType : String
deriving DecidableEq

/-- The global map `allInfo` (the Record Store), as a total lookup
function. -/
abbrev Store := meta → Option containerStartupInfo

/-- The empty Record Store (initial value of `allInfo`). -/
def emptyStore : Store := fun _ => none

/-- The key under which `receiveStartupInfo` files a record:
`meta{name: info.Name, namespace: info.Namespace}`. -/
def infoMeta (info : containerStartupInfo) : meta :=
  { name := info.Name, nspace := info.Namespace }

/-- Go `http.MethodPost`. -/
def methodPost : String := "POST"

/-- The body of a push request as seen by `receiveStartupInfo` after
JSON decoding: either the decoder failed or it produced a record. -/
inductive RequestBody where
  | malformed : RequestBody
  | wellFormed : containerStartupInfo → RequestBody

/-- Go `receiveStartupInfo` (export.go lines 125-153): non-POST and
undecodable bodies are answered 400; a well-formed record is inserted
only if its identity key is absent, and the handler answers 200 either
way. -/
def receiveStartupInfo (store : Store) (method : String) (body : RequestBody) :
    Store × Nat :=
  if method ≠ methodPost then (store, 400)
  else
    match body with
    | RequestBody.malformed => (store, 400)
    | RequestBody.wellFormed info =>
      match store (infoMeta info) with
      | some _ => (store, 200)
      | none => (Function.update store (infoMeta info) (some info), 200)

/-- A sequence of well-formed POST pushes starting from a given store;
returns the final store and the list of HTTP status codes answered. -/
def pushSeq : Store → List containerStartupInfo → Store × List Nat
  | s, [] => (s, [])
  | s, info :: rest =>
    ((pushSeq (receiveStartupInfo s methodPost (RequestBody.wellFormed info)).1 rest).1,
      (receiveStartupInfo s methodPost (RequestBody.wellFormed info)).2 ::
        (pushSeq (receiveStartupInfo s methodPost (RequestBody.wellFormed info)).1 rest).2)

/-- A container of a pod spec (`p.Spec.Containers`); only the count is
used by the core. -/
structure Container where
  name : String
deriving DecidableEq

/-- A container status of a pod (`p.Status.ContainerStatuses`). -/
structure ContainerStatus where
  name : String
  containerID : String
deriving DecidableEq

/-- The slice of a `corev1.Pod` that the core reads. -/
structure Pod where
  name : String
  nspace : String
  specContainers : List Container
  containerStatuses : List ContainerStatus
deriving DecidableEq

/-- Go `strings.Trim(s, " ")`: strip leading and trailing runs of the
space character (and only that character). -/
def trimSpaceChars (s : String) : String :=
  String.mk
    (((s.toList.dropWhile fun ch => ch == ' ').reverse.dropWhile
        fun ch => ch == ' ').reverse)

/-- Go `equal` (export.go lines 238-248): two pod-name sets are equal
when the sizes match and every key of the first is in the second. -/
def equal (a b : Finset String) : Bool :=
  decide (a.card = b.card ∧ ∀ k ∈ a, k ∈ b)

/-- Go `getPodNames` (export.go lines 202-210): the names of the
non-nil pods. -/
def getPodNames (pods : List (Option Pod)) : Finset String :=
  pods.foldl
    (fun names p =>
      match p with
      | none => names
      | some q => insert q.name names) ∅

/-- The pod-name-collecting loop of `shouldUpdate` (export.go lines
216-230): skips nil pods; aborts (`none`) when a pod reports zero
container statuses or some container ID trims (on spaces) to the empty
string; otherwise accumulates the pod names. -/
def collectPodNames : List (Option Pod) → Finset String → Option (Finset String)
  | [], names => some names
  | none :: rest, names => collectPodNames rest names
  | some p :: rest, names =>
    if p.containerStatuses.length = 0 then none
    else if p.containerStatuses.any fun c => trimSpaceChars c.containerID == "" then
      none
    else collectPodNames rest (insert p.name names)

/-- Go `shouldUpdate` (export.go lines 212-236), with the relevant
entry of the global `updatedDeploy` passed as `updatedDeploy`. -/
def shouldUpdate (updatedDeploy : Option (Finset String))
    (currentPods : List (Option Pod)) : Bool :=
  if currentPods.length = 0 then false
  else
    match collectPodNames currentPods ∅ with
    | none => false
    | some currentPodNames =>
      match updatedDeploy with
      | none => true
      | some lastPodNames => !(equal lastPodNames currentPodNames)

/-- Go `containerShortName` (export.go lines 321-327). -/
def containerShortName (name : String) : String :=
  if name.length > maxContainerNameLength then name.take maxContainerNameLength
  else name

/-- Go `strings.HasPrefix(s, pre)`, modelled on character lists (Go
checks the byte prefix, which agrees with the character prefix). -/
def strStartsWith (s pre : String) : Bool :=
  pre.toList.isPrefixOf s.toList

/-- The runtime-namespace record name of a container status:
`strings.TrimPrefix(c.ContainerID, containerNamePrefix)` for an ID
that carries the prefix. -/
def statusRecordName (c : ContainerStatus) : String :=
  c.containerID.drop containerNamePrefix.length

/-- The Record Store lookup performed by `doUpdate` for one container
status: key `meta{name, defaultContainerdK8sNamespace}`. -/
def statusFound (allInfo : Store) (c : ContainerStatus) :
    Option containerStartupInfo :=
  allInfo { name := statusRecordName c, nspace := defaultContainerdK8sNamespace }

/-- The mutable locals of `doUpdate` (export.go lines 251-259). -/
structure UpdateState where
  targetLen : ℤ
  total : ℤ
  startTimestamp : ℤ
  endTimestamp : ℤ
  unreceivedNames : List String
deriving DecidableEq

/-- The inner loop of `doUpdate` over one pod's container statuses
(export.go lines 267-288): a missing transport prefix is a hard error;
a found record updates the window bounds (new pods only) and the
running total; a missing record is tracked in `unreceivedNames`. -/
def processStatuses (allInfo : Store) (oldPod : Bool) :
    UpdateState → List ContainerStatus → Except String UpdateState
  | st, [] => Except.ok st
  | st, c :: rest =>
    if strStartsWith c.containerID containerNamePrefix then
      match statusFound allInfo c with
      | some info =>
        processStatuses allInfo oldPod
          { st with
            startTimestamp :=
              if oldPod then st.startTimestamp
              else if info.Start < st.startTimestamp then info.Start
              else st.startTimestamp
            endTimestamp :=
              if oldPod then st.endTimestamp
              else if info.End > st.endTimestamp then info.End
              else st.endTimestamp
            total := st.total + (info.End - info.Start) } rest
      | none =>
        processStatuses allInfo oldPod
          { st with
            unreceivedNames :=
              st.unreceivedNames ++ [containerShortName (statusRecordName c)] } rest
    else
      Except.error
        ("container " ++ c.name ++ " (" ++ c.containerID ++
          ") is not running by containerd")

/-- The outer loop of `doUpdate` over the pod list (export.go lines
263-290): skips nil pods, adds each pod's spec-container count to
`targetLen`, and runs the status loop with the pod's old/new flag. -/
def processPods (allInfo : Store) (lastPodNames : Finset String) :
    UpdateState → List (Option Pod) → Except String UpdateState
  | st, [] => Except.ok st
  | st, none :: rest => processPods allInfo lastPodNames st rest
  | st, some p :: rest =>
    match
      processStatuses allInfo (decide (p.name ∈ lastPodNames))
        { st with targetLen := st.targetLen + (p.specContainers.length : ℤ) }
        p.containerStatuses
    with
    | Except.ok st1 => processPods allInfo lastPodNames st1 rest
    | Except.error e => Except.error e

/-- The initial values of `doUpdate`'s locals. -/
def initState : UpdateState :=
  { targetLen := 0, total := 0, startTimestamp := maxInt64, endTimestamp := 0,
    unreceivedNames := [] }

/-- The observable outcome of one `doUpdate` call: the returned `bool`
and the two optional gauge writes. -/
structure DoUpdateResult where
  updated : Bool
  avgWrite : Option ℚ
  scaleWrite : Option ℤ
deriving DecidableEq

/-- Go `doUpdate` (export.go lines 250-307), with the relevant entry
of `updatedDeploy` passed in.  `avgWrite` models
`deployPodsAvgStartupLatency...Set(avg)` and `scaleWrite` models
`deployScaleLatency...Set(...)`.  The Go locals `lastPodNames`
(`updatedDeploy.getD ∅`, i.e. `{}` when the deployment has no entry)
and `receivedLen` (`targetLen - len(unreceivedNames)`) are inlined. -/
def doUpdate (updatedDeploy : Option (Finset String)) (allInfo : Store)
    (pods : List (Option Pod)) : Except String DoUpdateResult :=
  match processPods allInfo (updatedDeploy.getD ∅) initState pods with
  | Except.error e => Except.error e
  | Except.ok st =>
    if st.targetLen - (st.unreceivedNames.length : ℤ) = 0 then
      Except.ok { updated := false, avgWrite := none, scaleWrite := none }
    else if st.targetLen - (st.unreceivedNames.length : ℤ) ≠ st.targetLen then
      Except.ok { updated := false, avgWrite := none, scaleWrite := none }
    else
      Except.ok
        { updated := true
          avgWrite := some ((st.total : ℚ) /
            ((st.targetLen - (st.unreceivedNames.length : ℤ)) : ℚ))
          scaleWrite :=
            if st.endTimestamp > st.startTimestamp then
              some (st.endTimestamp - st.startTimestamp)
            else none }

/-- The per-deployment body of the scheduler loop
(`updateDeployScaleLatency`, export.go lines 178-187): the gate runs
first; on a successful, updating `doUpdate` the tracked pod set is
overwritten with `getPodNames pods`; otherwise it is untouched.
Returns (new tracked pod set, gauge writes of the step). -/
def schedulerStep (tracked : Option (Finset String)) (allInfo : Store)
    (pods : List (Option Pod)) :
    Option (Finset String) × Option ℚ × Option ℤ :=
  if shouldUpdate tracked pods then
    match doUpdate tracked allInfo pods with
    | Except.error _ => (tracked, none, none)
    | Except.ok out =>
      (if out.updated then some (getPodNames pods) else tracked,
        out.avgWrite, out.scaleWrite)
  else (tracked, none, none)

/-! ### Specification-level recomputations

Closed-form descriptions of what the `doUpdate` loop accumulates,
stated directly over the pod list; the lemmas below prove that the
loop state matches them. -/

/-- The non-nil pods of a listed pod slice. -/
def livePods (pods : List (Option Pod)) : List Pod := pods.filterMap id

/-- The records found in the store for one pod's container statuses. -/
def podFound (allInfo : Store) (p : Pod) : List containerStartupInfo :=
  p.containerStatuses.filterMap (statusFound allInfo)

/-- The number of container statuses of one pod whose lookup misses
the store. -/
def podMissing (allInfo : Store) (p : Pod) : Nat :=
  (p.containerStatuses.filter fun c => (statusFound allInfo c).isNone).length

/-- The completeness denominator: total spec-container count across
the live pods. -/
def targetCount (pods : List (Option Pod)) : ℤ :=
  ((livePods pods).map fun p => (p.specContainers.length : ℤ)).sum

/-- The number of looked-up identities absent from the store. -/
def unreceivedCount (allInfo : Store) (pods : List (Option Pod)) : ℤ :=
  ((livePods pods).map fun p => (podMissing allInfo p : ℤ)).sum

/-- `receivedCount = targetCount - unreceivedCount`. -/
def receivedCount (allInfo : Store) (pods : List (Option Pod)) : ℤ :=
  targetCount pods - unreceivedCount allInfo pods

/-- All records found for the live pods, old and new alike, in loop
order. -/
def foundInfos (allInfo : Store) (pods : List (Option Pod)) :
    List containerStartupInfo :=
  (livePods pods).foldr (fun p acc => podFound allInfo p ++ acc) []

/-- The records found for pods that are NOT in the tracked pod set
(new pods), in loop order. -/
def newFoundInfos (allInfo : Store) (last : Finset String)
    (pods : List (Option Pod)) : List containerStartupInfo :=
  (livePods pods).foldr
    (fun p acc => if p.name ∈ last then acc else podFound allInfo p ++ acc) []

/-- The sum of `End - Start` over all found records. -/
def totalOf (allInfo : Store) (pods : List (Option Pod)) : ℤ :=
  ((foundInfos allInfo pods).map fun i => i.End - i.Start).sum

/-- The minimum start timestamp over the new pods' found records,
starting from `maxInt64`. -/
def windowStart (allInfo : Store) (last : Finset String)
    (pods : List (Option Pod)) : ℤ :=
  (newFoundInfos allInfo last pods).foldl (fun a i => min a i.Start) maxInt64

/-- The maximum end timestamp over the new pods' found records,
starting from `0`. -/
def windowEnd (allInfo : Store) (last : Finset String)
    (pods : List (Option Pod)) : ℤ :=
  (newFoundInfos allInfo last pods).foldl (fun a i => max a i.End) 0

/-- Every container status of every live pod carries the transport
prefix (the well-formedness condition under which `doUpdate` cannot
fail). -/
def allPrefixed (pods : List (Option Pod)) : Prop :=
  ∀ p ∈ livePods pods, ∀ c ∈ p.containerStatuses,
    strStartsWith c.containerID containerNamePrefix = true

instance (pods : List (Option Pod)) : Decidable (allPrefixed pods) := by
  unfold allPrefixed; infer_instance

/-- The settledness check of `shouldUpdate`: every live pod reports at
least one container status and no container ID trims (on spaces) to
the empty string. -/
def settled (pods : List (Option Pod)) : Prop :=
  ∀ p ∈ livePods pods, p.containerStatuses ≠ [] ∧
    ∀ c ∈ p.containerStatuses, trimSpaceChars c.containerID ≠ ""

instance (pods : List (Option Pod)) : Decidable (settled pods) := by
  unfold settled; infer_instance

/-! ### Lemmas about record ingestion -/

lemma receiveStartupInfo_hit (s : Store) (i q : containerStartupInfo)
    (h : s (infoMeta i) = some q) :
    receiveStartupInfo s methodPost (RequestBody.wellFormed i) = (s, 200) := by
  unfold receiveStartupInfo
  rw [if_neg (by simp)]
  simp [h]

lemma receiveStartupInfo_miss (s : Store) (i : containerStartupInfo)
    (h : s (infoMeta i) = none) :
    receiveStartupInfo s methodPost (RequestBody.wellFormed i) =
      (Function.update s (infoMeta i) (some i), 200) := by
  unfold receiveStartupInfo
  rw [if_neg (by simp)]
  simp [h]

lemma pushSeq_store_of_some (infos : List containerStartupInfo) :
    ∀ (s : Store) (m : meta) (r : containerStartupInfo), s m = some r →
      (pushSeq s infos).1 m = some r := by
  induction infos with
  | nil => intro s m r h; simpa [pushSeq] using h
  | cons i is ih =>
    intro s m r h
    cases hsi : s (infoMeta i) with
    | some q => simp only [pushSeq, receiveStartupInfo_hit s i q hsi]; exact ih s m r h
    | none =>
      simp only [pushSeq, receiveStartupInfo_miss s i hsi]
      apply ih
      have hne : infoMeta i ≠ m := by
        intro he; rw [he, h] at hsi; exact Option.noConfusion hsi
      simpa [Function.update_noteq (Ne.symm hne)] using h

lemma pushSeq_store_of_none (infos : List containerStartupInfo) :
    ∀ (s : Store) (m : meta), s m = none →
      (pushSeq s infos).1 m = infos.find? fun i => infoMeta i == m := by
  induction infos with
  | nil => intro s m h; simpa [pushSeq] using h
  | cons i is ih =>
    intro s m h
    by_cases hm : infoMeta i = m
    · have hsi : s (infoMeta i) = none := by rw [hm]; exact h
      simp only [pushSeq, receiveStartupInfo_miss s i hsi]
      have hup : (Function.update s (infoMeta i) (some i)) m = some i := by
        rw [hm]; exact Function.update_same m _ s
      rw [pushSeq_store_of_some is _ m i hup]
      simp [List.find?, hm]
    · have hhead : (infoMeta i == m) = false := by simpa using hm
      cases hsi : s (infoMeta i) with
      | some q =>
        simp only [pushSeq, receiveStartupInfo_hit s i q hsi]
        rw [ih s m h]; simp [List.find?, hhead]
      | none =>
        simp only [pushSeq, receiveStartupInfo_miss s i hsi]
        rw [ih _ m (by simpa [Function.update_noteq (Ne.symm hm)] using h)]
        simp [List.find?, hhead]

lemma pushSeq_statuses (infos : List containerStartupInfo) :
    ∀ s : Store, (pushSeq s infos).2 = infos.map fun _ => 200 := by
  induction infos with
  | nil => intro s; rfl
  | cons i is ih =>
    intro s
    cases hsi : s (infoMeta i) with
    | some q => simp only [pushSeq, receiveStartupInfo_hit s i q hsi]; simp [ih]
    | none => simp only [pushSeq, receiveStartupInfo_miss s i hsi]; simp [ih]

/-! ### Lemmas about the gate -/

@[simp] lemma livePods_nil : livePods ([] : List (Option Pod)) = [] := rfl

@[simp] lemma livePods_cons_none (rest : List (Option Pod)) :
    livePods (none :: rest) = livePods rest := by simp [livePods]

@[simp] lemma livePods_cons_some (p : Pod) (rest : List (Option Pod)) :
    livePods (some p :: rest) = p :: livePods rest := by simp [livePods]

lemma dropWhile_all {p : Char → Bool} :
    ∀ l : List Char, (∀ x ∈ l.dropWhile p, p x = true) → ∀ x ∈ l, p x = true := by
  intro l
  induction l with
  | nil => simp
  | cons a as ih =>
    intro h x hx
    by_cases hpa : p a = true
    · rcases List.mem_cons.mp hx with rfl | hx'
      · exact hpa
      · exact ih (by simpa [List.dropWhile_cons, hpa] using h) x hx'
    · exact h x (by simpa [List.dropWhile_cons, hpa] using hx)

lemma trimSpaceChars_eq_empty_iff (s : String) :
    trimSpaceChars s = "" ↔ ∀ ch ∈ s.toList, (ch == ' ') = true := by
  have hmk : ∀ l : List Char, String.mk l = "" ↔ l = [] := by
    intro l
    constructor
    · intro h; exact congrArg String.data h
    · intro h; rw [h]
  rw [trimSpaceChars, hmk, List.reverse_eq_nil_iff, List.dropWhile_eq_nil_iff]
  constructor
  · intro h
    apply dropWhile_all
    intro x hx
    exact h x (List.mem_reverse.mpr hx)
  · intro h x hx
    exact h x ((List.dropWhile_sublist _).subset (List.mem_reverse.mp hx))

lemma equal_iff (a b : Finset String) : equal a b = true ↔ a = b := by
  simp only [equal, decide_eq_true_eq]
  constructor
  · rintro ⟨hcard, hsub⟩
    exact Finset.eq_of_subset_of_card_le (fun x hx => hsub x hx) (le_of_eq hcard.symm)
  · rintro rfl
    exact ⟨rfl, fun k hk => hk⟩

lemma getPodNames_foldl (pods : List (Option Pod)) :
    ∀ init : Finset String,
      pods.foldl
        (fun names p =>
          match p with
          | none => names
          | some q => insert q.name names) init =
      (livePods pods).foldl (fun ns p => insert p.name ns) init := by
  induction pods with
  | nil => intro init; rfl
  | cons hd rest ih =>
    intro init
    cases hd with
    | none => simpa using ih init
    | some q => simpa using ih (insert q.name init)

lemma getPodNames_eq (pods : List (Option Pod)) :
    getPodNames pods = (livePods pods).foldl (fun ns p => insert p.name ns) ∅ :=
  getPodNames_foldl pods ∅

lemma collectPodNames_of_settled :
    ∀ (pods : List (Option Pod)) (init : Finset String), settled pods →
      collectPodNames pods init =
        some ((livePods pods).foldl (fun ns p => insert p.name ns) init) := by
  intro pods
  induction pods with
  | nil => intro init _; rfl
  | cons hd rest ih =>
    intro init h
    cases hd with
    | none =>
      rw [collectPodNames]
      have hrest : settled rest := by
        intro q hq; exact h q (by simpa using hq)
      simpa using ih init hrest
    | some p =>
      have hp := h p (by simp)
      have hrest : settled rest := by
        intro q hq; exact h q (by simp [hq])
      rw [collectPodNames, if_neg, if_neg]
      · simpa using ih (insert p.name init) hrest
      · intro hany
        rcases List.any_eq_true.mp hany with ⟨c, hc, htrim⟩
        exact hp.2 c hc (by simpa using htrim)
      · simpa [List.length_eq_zero] using hp.1

lemma collectPodNames_violation :
    ∀ (pods : List (Option Pod)) (init : Finset String),
      (∃ p, some p ∈ pods ∧ (p.containerStatuses = [] ∨
        ∃ c ∈ p.containerStatuses, trimSpaceChars c.containerID = "")) →
      collectPodNames pods init = none := by
  intro pods
  induction pods with
  | nil =>
    rintro init ⟨p, hp, -⟩
    exact absurd hp (List.not_mem_nil _)
  | cons hd rest ih =>
    rintro init ⟨p, hp, hviol⟩
    cases hd with
    | none =>
      rw [collectPodNames]
      refine ih init ⟨p, ?_, hviol⟩
      simpa using hp
    | some q =>
      rcases List.mem_cons.mp hp with heq | hmem
      · have hq : p = q := Option.some.inj heq
        subst hq
        rw [collectPodNames]
        rcases hviol with hempty | ⟨c, hc, htrim⟩
        · rw [if_pos (by simp [hempty])]
        · by_cases hlen : p.containerStatuses.length = 0
          · rw [if_pos hlen]
          · rw [if_neg hlen, if_pos]
            exact List.any_eq_true.mpr ⟨c, hc, by simpa using htrim⟩
      · rw [collectPodNames]
        by_cases h1 : q.containerStatuses.length = 0
        · rw [if_pos h1]
        · by_cases h2 :
            (q.containerStatuses.any fun c => trimSpaceChars c.containerID == "") = true
          · rw [if_neg h1, if_pos h2]
          · rw [if_neg h1, if_neg h2]
            exact ih _ ⟨p, hmem, hviol⟩

/-! ### Claims C6, C7, C8: the completeness gate -/

/-- Claim C6 (amended): for every deployment and NON-EMPTY live pod
list whose live pods all pass the settledness check, if no tracked pod
set exists `shouldUpdate` returns true; if a tracked pod set exists,
`shouldUpdate` returns true if and only if the live pod-name set
differs from the tracked pod set under set equality.  (The amendment
adds non-emptiness: the empty pod list passes the settledness check
vacuously yet `shouldUpdate` returns false on it.) -/
theorem gateChurnDetection (tracked : Option (Finset String))
    (pods : List (Option Pod)) (hne : pods ≠ []) (hs : settled pods) :
    (tracked = none → shouldUpdate tracked pods = true)
    ∧ ∀ last, tracked = some last →
        (shouldUpdate tracked pods = true ↔ ¬ last = getPodNames pods) := by
  have hlen : ¬ pods.length = 0 := by simpa [List.length_eq_zero] using hne
  have hcol := collectPodNames_of_settled pods ∅ hs
  constructor
  · rintro rfl
    unfold shouldUpdate
    rw [if_neg hlen, hcol]
  · rintro last rfl
    unfold shouldUpdate
    rw [if_neg hlen, hcol, ← getPodNames_eq]
    show (!(equal last (getPodNames pods))) = true ↔ ¬ last = getPodNames pods
    constructor
    · intro htrue heq
      rw [(equal_iff _ _).mpr heq] at htrue
      simp at htrue
    · intro hneq
      have hfalse : equal last (getPodNames pods) = false := by
        cases hb : equal last (getPodNames pods)
        · rfl
        · exact absurd ((equal_iff _ _).mp hb) hneq
      rw [hfalse]
      rfl

/-- Witness for C6 at a concrete input: a tracked set exists and
differs from the live pod names, so the gate fires. -/
theorem gateChurnDetection_witness :
    ([some (⟨"p2", "ns", [⟨"c"⟩], [⟨"c", "containerd://x"⟩]⟩ : Pod)] ≠
        ([] : List (Option Pod)))
    ∧ settled [some (⟨"p2", "ns", [⟨"c"⟩], [⟨"c", "containerd://x"⟩]⟩ : Pod)]
    ∧ shouldUpdate (some {"p1"})
        [some (⟨"p2", "ns", [⟨"c"⟩], [⟨"c", "containerd://x"⟩]⟩ : Pod)] = true := by
  refine ⟨by simp, by decide, ?_⟩
  exact ((gateChurnDetection (some {"p1"}) _ (by simp) (by decide)).2
    {"p1"} rfl).mpr (by decide)

/-- Counterexample to C6 as stated: the empty pod list passes the
settledness check vacuously and has no tracked pod set, yet
`shouldUpdate` returns false, not true. -/
theorem gateChurnDetection_cex :
    settled ([] : List (Option Pod))
    ∧ shouldUpdate none ([] : List (Option Pod)) = false :=
  ⟨by decide, by decide⟩

/-- Claim C7 (amended): if any live pod reports zero container
statuses, or any container status of any live pod has a
runtime-container-ID consisting only of SPACE characters (blank
included), `shouldUpdate` returns false, regardless of the tracked pod
set.  (The amendment narrows "whitespace" to the space character: the
source trims only `" "`, so e.g. a tab-only ID passes the check.) -/
theorem gateSettledShortCircuit (tracked : Option (Finset String))
    (pods : List (Option Pod))
    (hv : ∃ p, some p ∈ pods ∧ (p.containerStatuses = [] ∨
      ∃ c ∈ p.containerStatuses,
        (c.containerID.toList.all fun ch => ch == ' ') = true)) :
    shouldUpdate tracked pods = false := by
  have hv' : ∃ p, some p ∈ pods ∧ (p.containerStatuses = [] ∨
      ∃ c ∈ p.containerStatuses, trimSpaceChars c.containerID = "") := by
    rcases hv with ⟨p, hp, h⟩
    refine ⟨p, hp, ?_⟩
    rcases h with h | ⟨c, hc, hall⟩
    · exact Or.inl h
    · exact Or.inr ⟨c, hc,
        (trimSpaceChars_eq_empty_iff _).mpr (fun ch hch => by
          simpa using List.all_eq_true.mp hall ch hch)⟩
  unfold shouldUpdate
  by_cases hlen : pods.length = 0
  · rw [if_pos hlen]
  · rw [if_neg hlen, collectPodNames_violation pods ∅ hv']

/-- Witness for C7 at a concrete input: a container ID of two spaces
makes the gate return false. -/
theorem gateSettledShortCircuit_witness :
    (∃ p, some p ∈ [some (⟨"p1", "ns", [⟨"c"⟩], [⟨"c", "  "⟩]⟩ : Pod)] ∧
      (p.containerStatuses = [] ∨
        ∃ c ∈ p.containerStatuses,
          (c.containerID.toList.all fun ch => ch == ' ') = true))
    ∧ shouldUpdate none [some (⟨"p1", "ns", [⟨"c"⟩], [⟨"c", "  "⟩]⟩ : Pod)] =
        false := by
  refine ⟨⟨⟨"p1", "ns", [⟨"c"⟩], [⟨"c", "  "⟩]⟩, by simp,
    Or.inr ⟨⟨"c", "  "⟩, by simp, by decide⟩⟩, ?_⟩
  exact gateSettledShortCircuit none _ ⟨⟨"p1", "ns", [⟨"c"⟩], [⟨"c", "  "⟩]⟩,
    by simp, Or.inr ⟨⟨"c", "  "⟩, by simp, by decide⟩⟩

/-- Counterexample to C7 as stated: a tab-only container ID is
whitespace-only and non-blank, yet `shouldUpdate` returns true for a
fresh deployment (the source trims only the space character). -/
theorem gateSettledShortCircuit_cex :
    (("\t".toList.all fun ch => ch.isWhitespace) = true)
    ∧ ("\t" : String) ≠ ""
    ∧ shouldUpdate none [some (⟨"p1", "ns", [⟨"c1"⟩], [⟨"c1", "\t"⟩]⟩ : Pod)] =
        true :=
  ⟨by decide, by decide, by decide⟩

/-- Claim C8: for every deployment, if the list of live pods is empty,
`shouldUpdate` returns false, so scoring is never triggered for a
deployment with zero live pods. -/
theorem emptyPodListNoScore (tracked : Option (Finset String)) :
    shouldUpdate tracked ([] : List (Option Pod)) = false := rfl

/-! ### Characterizing the aggregation loop -/

lemma ite_min (a b : ℤ) : (if b < a then b else a) = min a b := by
  rw [min_def]; split_ifs <;> omega

lemma ite_max (a b : ℤ) : (if a < b then b else a) = max a b := by
  rw [max_def]; split_ifs <;> omega

/-- Closed form of the state after the status loop of one pod. -/
def statusesSpec (allInfo : Store) (oldPod : Bool) (st : UpdateState)
    (cs : List ContainerStatus) : UpdateState :=
  { targetLen := st.targetLen
    total := st.total +
      ((cs.filterMap (statusFound allInfo)).map fun i => i.End - i.Start).sum
    startTimestamp :=
      if oldPod then st.startTimestamp
      else (cs.filterMap (statusFound allInfo)).foldl
        (fun a i => min a i.Start) st.startTimestamp
    endTimestamp :=
      if oldPod then st.endTimestamp
      else (cs.filterMap (statusFound allInfo)).foldl
        (fun a i => max a i.End) st.endTimestamp
    unreceivedNames := st.unreceivedNames ++
      ((cs.filter fun c => (statusFound allInfo c).isNone).map
        fun c => containerShortName (statusRecordName c)) }

lemma processStatuses_eq (allInfo : Store) (oldPod : Bool) :
    ∀ cs : List ContainerStatus,
      (∀ c ∈ cs, strStartsWith c.containerID containerNamePrefix = true) →
      ∀ st : UpdateState,
        processStatuses allInfo oldPod st cs =
          Except.ok (statusesSpec allInfo oldPod st cs) := by
  intro cs
  induction cs with
  | nil =>
    intro h st
    simp [processStatuses, statusesSpec]
  | cons c rest ih =>
    intro h st
    have hc := h c (by simp)
    have hrest := ih fun x hx => h x (by simp [hx])
    rw [processStatuses, if_pos hc]
    cases hfound : statusFound allInfo c with
    | some info =>
      cases oldPod <;>
        simp [hrest, statusesSpec, hfound, List.filterMap_cons, List.filter_cons,
          ite_min, ite_max, add_assoc]
    | none =>
      cases oldPod <;>
        simp [hrest, statusesSpec, hfound, List.filterMap_cons, List.filter_cons]

/-- Closed form of the state after the outer pod loop. -/
def podsSpec (allInfo : Store) (last : Finset String) :
    UpdateState → List (Option Pod) → UpdateState
  | st, [] => st
  | st, none :: rest => podsSpec allInfo last st rest
  | st, some p :: rest =>
    podsSpec allInfo last
      (statusesSpec allInfo (decide (p.name ∈ last))
        { st with targetLen := st.targetLen + (p.specContainers.length : ℤ) }
        p.containerStatuses) rest

lemma processPods_eq (allInfo : Store) (last : Finset String) :
    ∀ pods : List (Option Pod), allPrefixed pods →
      ∀ st : UpdateState,
        processPods allInfo last st pods =
          Except.ok (podsSpec allInfo last st pods) := by
  intro pods
  induction pods with
  | nil => intro _ st; rfl
  | cons hd rest ih =>
    intro h st
    cases hd with
    | none =>
      have hrest := ih fun p hp => h p (by simpa using hp)
      rw [processPods, podsSpec]
      exact hrest st
    | some p =>
      have hp : ∀ c ∈ p.containerStatuses,
          strStartsWith c.containerID containerNamePrefix = true := h p (by simp)
      have hrest := ih fun q hq => h q (by simp [hq])
      rw [processPods, podsSpec,
        processStatuses_eq allInfo (decide (p.name ∈ last)) p.containerStatuses hp]
      exact hrest _

@[simp] lemma targetCount_nil : targetCount ([] : List (Option Pod)) = 0 := rfl

@[simp] lemma targetCount_cons_none (rest : List (Option Pod)) :
    targetCount (none :: rest) = targetCount rest := by simp [targetCount]

@[simp] lemma targetCount_cons_some (p : Pod) (rest : List (Option Pod)) :
    targetCount (some p :: rest) =
      (p.specContainers.length : ℤ) + targetCount rest := by simp [targetCount]

@[simp] lemma unreceivedCount_nil (allInfo : Store) :
    unreceivedCount allInfo ([] : List (Option Pod)) = 0 := rfl

@[simp] lemma unreceivedCount_cons_none (allInfo : Store) (rest : List (Option Pod)) :
    unreceivedCount allInfo (none :: rest) = unreceivedCount allInfo rest := by
  simp [unreceivedCount]

@[simp] lemma unreceivedCount_cons_some (allInfo : Store) (p : Pod)
    (rest : List (Option Pod)) :
    unreceivedCount allInfo (some p :: rest) =
      (podMissing allInfo p : ℤ) + unreceivedCount allInfo rest := by
  simp [unreceivedCount]

@[simp] lemma foundInfos_nil (allInfo : Store) :
    foundInfos allInfo ([] : List (Option Pod)) = [] := rfl

@[simp] lemma foundInfos_cons_none (allInfo : Store) (rest : List (Option Pod)) :
    foundInfos allInfo (none :: rest) = foundInfos allInfo rest := by
  simp [foundInfos]

@[simp] lemma foundInfos_cons_some (allInfo : Store) (p : Pod)
    (rest : List (Option Pod)) :
    foundInfos allInfo (some p :: rest) =
      podFound allInfo p ++ foundInfos allInfo rest := by
  simp [foundInfos]

@[simp] lemma newFoundInfos_nil (allInfo : Store) (last : Finset String) :
    newFoundInfos allInfo last ([] : List (Option Pod)) = [] := rfl

@[simp] lemma newFoundInfos_cons_none (allInfo : Store) (last : Finset String)
    (rest : List (Option Pod)) :
    newFoundInfos allInfo last (none :: rest) = newFoundInfos allInfo last rest := by
  simp [newFoundInfos]

@[simp] lemma newFoundInfos_cons_some (allInfo : Store) (last : Finset String)
    (p : Pod) (rest : List (Option Pod)) :
    newFoundInfos allInfo last (some p :: rest) =
      if p.name ∈ last then newFoundInfos allInfo last rest
      else podFound allInfo p ++ newFoundInfos allInfo last rest := by
  simp [newFoundInfos]

lemma podsSpec_targetLen (allInfo : Store) (last : Finset String) :
    ∀ (pods : List (Option Pod)) (st : UpdateState),
      (podsSpec allInfo last st pods).targetLen = st.targetLen + targetCount pods := by
  intro pods
  induction pods with
  | nil => intro st; simp [podsSpec]
  | cons hd rest ih =>
    intro st
    cases hd with
    | none => rw [podsSpec, ih]; simp
    | some p => rw [podsSpec, ih]; simp [statusesSpec, add_assoc]

lemma podsSpec_total (allInfo : Store) (last : Finset String) :
    ∀ (pods : List (Option Pod)) (st : UpdateState),
      (podsSpec allInfo last st pods).total =
        st.total + ((foundInfos allInfo pods).map fun i => i.End - i.Start).sum := by
  intro pods
  induction pods with
  | nil => intro st; simp [podsSpec]
  | cons hd rest ih =>
    intro st
    cases hd with
    | none => rw [podsSpec, ih]; simp
    | some p => rw [podsSpec, ih]; simp [statusesSpec, podFound, add_assoc]

lemma podsSpec_start (allInfo : Store) (last : Finset String) :
    ∀ (pods : List (Option Pod)) (st : UpdateState),
      (podsSpec allInfo last st pods).startTimestamp =
        (newFoundInfos allInfo last pods).foldl
          (fun a i => min a i.Start) st.startTimestamp := by
  intro pods
  induction pods with
  | nil => intro st; simp [podsSpec]
  | cons hd rest ih =>
    intro st
    cases hd with
    | none => rw [podsSpec, ih]; simp
    | some p =>
      rw [podsSpec, ih]
      by_cases hm : p.name ∈ last <;>
        simp [statusesSpec, hm, podFound, List.foldl_append]

lemma podsSpec_end (allInfo : Store) (last : Finset String) :
    ∀ (pods : List (Option Pod)) (st : UpdateState),
      (podsSpec allInfo last st pods).endTimestamp =
        (newFoundInfos allInfo last pods).foldl
          (fun a i => max a i.End) st.endTimestamp := by
  intro pods
  induction pods with
  | nil => intro st; simp [podsSpec]
  | cons hd rest ih =>
    intro st
    cases hd with
    | none => rw [podsSpec, ih]; simp
    | some p =>
      rw [podsSpec, ih]
      by_cases hm : p.name ∈ last <;>
        simp [statusesSpec, hm, podFound, List.foldl_append]

lemma podsSpec_unreceivedLen (allInfo : Store) (last : Finset String) :
    ∀ (pods : List (Option Pod)) (st : UpdateState),
      ((podsSpec allInfo last st pods).unreceivedNames.length : ℤ) =
        (st.unreceivedNames.length : ℤ) + unreceivedCount allInfo pods := by
  intro pods
  induction pods with
  | nil => intro st; simp [podsSpec]
  | cons hd rest ih =>
    intro st
    cases hd with
    | none => rw [podsSpec, ih]; simp
    | some p =>
      rw [podsSpec, ih]
      simp [statusesSpec, podMissing, add_assoc]

/-- Closed form of `doUpdate` on prefix-violation-free input. -/
lemma doUpdate_spec (tracked : Option (Finset String)) (allInfo : Store)
    (pods : List (Option Pod)) (hpre : allPrefixed pods) :
    doUpdate tracked allInfo pods =
      if receivedCount allInfo pods = 0 then
        Except.ok { updated := false, avgWrite := none, scaleWrite := none }
      else if receivedCount allInfo pods ≠ targetCount pods then
        Except.ok { updated := false, avgWrite := none, scaleWrite := none }
      else
        Except.ok
          { updated := true
            avgWrite := some ((totalOf allInfo pods : ℚ) /
              (receivedCount allInfo pods : ℚ))
            scaleWrite :=
              if windowEnd allInfo (tracked.getD ∅) pods >
                  windowStart allInfo (tracked.getD ∅) pods then
                some (windowEnd allInfo (tracked.getD ∅) pods -
                  windowStart allInfo (tracked.getD ∅) pods)
              else none } := by
  have h1 : (podsSpec allInfo (tracked.getD ∅) initState pods).targetLen =
      targetCount pods := by
    rw [podsSpec_targetLen]; simp [initState]
  have h2 : ((podsSpec allInfo (tracked.getD ∅) initState pods).unreceivedNames.length : ℤ) =
      unreceivedCount allInfo pods := by
    rw [podsSpec_unreceivedLen]; simp [initState]
  have h3 : (podsSpec allInfo (tracked.getD ∅) initState pods).total =
      totalOf allInfo pods := by
    rw [podsSpec_total]; simp [initState, totalOf]
  have h4 : (podsSpec allInfo (tracked.getD ∅) initState pods).startTimestamp =
      windowStart allInfo (tracked.getD ∅) pods := by
    rw [podsSpec_start]; simp [initState, windowStart]
  have h5 : (podsSpec allInfo (tracked.getD ∅) initState pods).endTimestamp =
      windowEnd allInfo (tracked.getD ∅) pods := by
    rw [podsSpec_end]; simp [initState, windowEnd]
  unfold doUpdate
  rw [processPods_eq allInfo (tracked.getD ∅) pods hpre initState]
  simp only [h1, h2, h3, h4, h5, receivedCount, Int.cast_sub]

/-! ### Claims C2, C3, C4: the aggregator -/

/-- Claim C2: on a live pod set free of prefix violations, `doUpdate`
returns `(false, nil)` and writes neither gauge whenever
`receivedCount = 0` or `receivedCount ≠ targetCount`; conversely any
gauge write implies `receivedCount = targetCount`. -/
theorem completenessGating (tracked : Option (Finset String)) (allInfo : Store)
    (pods : List (Option Pod)) (hpre : allPrefixed pods) :
    ((receivedCount allInfo pods = 0 ∨
        receivedCount allInfo pods ≠ targetCount pods) →
      doUpdate tracked allInfo pods =
        Except.ok { updated := false, avgWrite := none, scaleWrite := none })
    ∧ ∀ out, doUpdate tracked allInfo pods = Except.ok out →
        (out.avgWrite ≠ none ∨ out.scaleWrite ≠ none) →
        receivedCount allInfo pods = targetCount pods := by
  rw [doUpdate_spec tracked allInfo pods hpre]
  constructor
  · intro h
    by_cases h0 : receivedCount allInfo pods = 0
    · rw [if_pos h0]
    · rcases h with h | h
      · exact absurd h h0
      · rw [if_neg h0, if_pos h]
  · intro out hout hw
    by_cases h0 : receivedCount allInfo pods = 0
    · rw [if_pos h0] at hout
      injection hout with h
      rw [← h] at hw
      simp at hw
    · by_cases h1 : receivedCount allInfo pods ≠ targetCount pods
      · rw [if_neg h0, if_pos h1] at hout
        injection hout with h
        rw [← h] at hw
        simp at hw
      · push_neg at h1
        exact h1

/-- Claim C3: when `doUpdate` publishes, the scale-latency gauge is
written if and only if `maxEnd > minStart`, where the window bounds
`minStart`/`maxEnd` are accumulated over the found records of NEW pods
only (`windowStart`/`windowEnd` range over `newFoundInfos`, the
records of pods absent from the tracked pod set); otherwise the gauge
is untouched. -/
theorem scaleLatencyWindowing (tracked : Option (Finset String)) (allInfo : Store)
    (pods : List (Option Pod)) (hpre : allPrefixed pods) :
    ∀ out, doUpdate tracked allInfo pods = Except.ok out → out.updated = true →
      out.scaleWrite =
        if windowEnd allInfo (tracked.getD ∅) pods >
            windowStart allInfo (tracked.getD ∅) pods then
          some (windowEnd allInfo (tracked.getD ∅) pods -
            windowStart allInfo (tracked.getD ∅) pods)
        else none := by
  rw [doUpdate_spec tracked allInfo pods hpre]
  intro out hout hupd
  by_cases h0 : receivedCount allInfo pods = 0
  · rw [if_pos h0] at hout
    injection hout with h
    rw [← h] at hupd
    simp at hupd
  · by_cases h1 : receivedCount allInfo pods ≠ targetCount pods
    · rw [if_neg h0, if_pos h1] at hout
      injection hout with h
      rw [← h] at hupd
      simp at hupd
    · rw [if_neg h0, if_neg h1] at hout
      injection hout with h
      rw [← h]

/-- Claim C4: when `doUpdate` publishes, the average gauge equals the
sum of `End - Start` over all found records (old and new pods alike)
divided by `receivedCount`. -/
theorem averageCorrectness (tracked : Option (Finset String)) (allInfo : Store)
    (pods : List (Option Pod)) (hpre : allPrefixed pods) :
    ∀ out, doUpdate tracked allInfo pods = Except.ok out → out.updated = true →
      out.avgWrite = some ((totalOf allInfo pods : ℚ) /
        (receivedCount allInfo pods : ℚ)) := by
  rw [doUpdate_spec tracked allInfo pods hpre]
  intro out hout hupd
  by_cases h0 : receivedCount allInfo pods = 0
  · rw [if_pos h0] at hout
    injection hout with h
    rw [← h] at hupd
    simp at hupd
  · by_cases h1 : receivedCount allInfo pods ≠ targetCount pods
    · rw [if_neg h0, if_pos h1] at hout
      injection hout with h
      rw [← h] at hupd
      simp at hupd
    · rw [if_neg h0, if_neg h1] at hout
      injection hout with h
      rw [← h]

/-- Concrete store for the C2 witness: only container `a` has
reported. -/
def gateStore : Store := fun m =>
  if m = { name := "a", nspace := "k8s.io" } then
    some { Name := "a", Namespace := "k8s.io", Start := 100, End := 150,
           infoType := "" }
  else none

/-- Concrete pod list for the C2 witness: two declared and reported
containers, only one received. -/
def gatePods : List (Option Pod) :=
  [some
    { name := "p1", nspace := "ns"
      specContainers := [{ name := "c1" }, { name := "c2" }]
      containerStatuses :=
        [{ name := "c1", containerID := "containerd://a" },
         { name := "c2", containerID := "containerd://b" }] }]

/-- Witness for C2 at a concrete partial state: one of two containers
received, so nothing is published. -/
theorem completenessGating_witness :
    allPrefixed gatePods
    ∧ receivedCount gateStore gatePods = 1
    ∧ targetCount gatePods = 2
    ∧ doUpdate none gateStore gatePods =
        Except.ok { updated := false, avgWrite := none, scaleWrite := none } := by
  refine ⟨by decide, by decide, by decide, ?_⟩
  exact (completenessGating none gateStore gatePods (by decide)).1 (Or.inr (by decide))

/-- Concrete store for the C4 witness: records `(100,150)` and
`(200,260)`. -/
def avgStore : Store := fun m =>
  if m = { name := "a", nspace := "k8s.io" } then
    some { Name := "a", Namespace := "k8s.io", Start := 100, End := 150,
           infoType := "" }
  else if m = { name := "b", nspace := "k8s.io" } then
    some { Name := "b", Namespace := "k8s.io", Start := 200, End := 260,
           infoType := "" }
  else none

/-- Concrete pod list for the C4 witness: both containers received. -/
def avgPods : List (Option Pod) :=
  [some
    { name := "p1", nspace := "ns"
      specContainers := [{ name := "c1" }, { name := "c2" }]
      containerStatuses :=
        [{ name := "c1", containerID := "containerd://a" },
         { name := "c2", containerID := "containerd://b" }] }]

/-- Witness for C4: with pairs (100,150) and (200,260) fully received,
the published average is `110 / 2 = 55`. -/
theorem averageCorrectness_witness :
    allPrefixed avgPods
    ∧ totalOf avgStore avgPods = 110
    ∧ receivedCount avgStore avgPods = 2
    ∧ ∃ out, doUpdate none avgStore avgPods = Except.ok out
        ∧ out.updated = true
        ∧ out.avgWrite =
            some ((totalOf avgStore avgPods : ℚ) /
              (receivedCount avgStore avgPods : ℚ))
        ∧ out.avgWrite = some 55 := by
  have h1 : totalOf avgStore avgPods = 110 := by decide
  have h2 : receivedCount avgStore avgPods = 2 := by decide
  have hok : doUpdate none avgStore avgPods =
      Except.ok
        { updated := true
          avgWrite := some ((totalOf avgStore avgPods : ℚ) /
            (receivedCount avgStore avgPods : ℚ))
          scaleWrite :=
            if windowEnd avgStore ((none : Option (Finset String)).getD ∅) avgPods >
                windowStart avgStore ((none : Option (Finset String)).getD ∅) avgPods then
              some (windowEnd avgStore ((none : Option (Finset String)).getD ∅) avgPods -
                windowStart avgStore ((none : Option (Finset String)).getD ∅) avgPods)
            else none } := by
    rw [doUpdate_spec none avgStore avgPods (by decide),
      if_neg (by decide), if_neg (by decide)]
  have havg := averageCorrectness none avgStore avgPods (by decide) _ hok rfl
  refine ⟨by decide, h1, h2, _, hok, rfl, havg, ?_⟩
  rw [havg, h1, h2]
  norm_num

/-- Concrete store for the C3 witness: the old pod's record `(10,20)`
and the new pod's record `(400,450)`. -/
def scaleStore : Store := fun m =>
  if m = { name := "o", nspace := "k8s.io" } then
    some { Name := "o", Namespace := "k8s.io", Start := 10, End := 20,
           infoType := "" }
  else if m = { name := "n", nspace := "k8s.io" } then
    some { Name := "n", Namespace := "k8s.io", Start := 400, End := 450,
           infoType := "" }
  else none

/-- Concrete pod list for the C3 witness: pod `oldp` is tracked, pod
`newp` is new. -/
def scalePods : List (Option Pod) :=
  [some
    { name := "oldp", nspace := "ns"
      specContainers := [{ name := "c1" }]
      containerStatuses := [{ name := "c1", containerID := "containerd://o" }] },
   some
    { name := "newp", nspace := "ns"
      specContainers := [{ name := "c2" }]
      containerStatuses := [{ name := "c2", containerID := "containerd://n" }] }]

/-- Witness for C3: with a tracked old pod and one new pod spanning
(400,450), the published window is the new pod's `450 - 400 = 50`,
ignoring the old pod's earlier record. -/
theorem scaleLatencyWindowing_witness :
    allPrefixed scalePods
    ∧ windowStart scaleStore {"oldp"} scalePods = 400
    ∧ windowEnd scaleStore {"oldp"} scalePods = 450
    ∧ ∃ out, doUpdate (some {"oldp"}) scaleStore scalePods = Except.ok out
        ∧ out.updated = true
        ∧ out.scaleWrite =
            (if windowEnd scaleStore ((some {"oldp"} : Option (Finset String)).getD ∅)
                scalePods >
              windowStart scaleStore ((some {"oldp"} : Option (Finset String)).getD ∅)
                scalePods then
              some (windowEnd scaleStore
                  ((some {"oldp"} : Option (Finset String)).getD ∅) scalePods -
                windowStart scaleStore
                  ((some {"oldp"} : Option (Finset String)).getD ∅) scalePods)
            else none)
        ∧ out.scaleWrite = some 50 := by
  have hok : doUpdate (some {"oldp"}) scaleStore scalePods =
      Except.ok
        { updated := true
          avgWrite := some ((totalOf scaleStore scalePods : ℚ) /
            (receivedCount scaleStore scalePods : ℚ))
          scaleWrite :=
            if windowEnd scaleStore ((some {"oldp"} : Option (Finset String)).getD ∅)
                scalePods >
              windowStart scaleStore ((some {"oldp"} : Option (Finset String)).getD ∅)
                scalePods then
              some (windowEnd scaleStore
                  ((some {"oldp"} : Option (Finset String)).getD ∅) scalePods -
                windowStart scaleStore
                  ((some {"oldp"} : Option (Finset String)).getD ∅) scalePods)
            else none } := by
    rw [doUpdate_spec (some {"oldp"}) scaleStore scalePods (by decide),
      if_neg (by decide), if_neg (by decide)]
  have h := scaleLatencyWindowing (some {"oldp"}) scaleStore scalePods
    (by decide) _ hok rfl
  refine ⟨by decide, by decide, by decide, _, hok, rfl, h, ?_⟩
  rw [h, if_pos (by decide)]
  decide

/-! ### Claim C5: prefix violations are hard errors -/

lemma processStatuses_error (allInfo : Store) (oldPod : Bool) :
    ∀ cs : List ContainerStatus,
      (∃ c ∈ cs, strStartsWith c.containerID containerNamePrefix = false) →
      ∀ st, ∃ e, processStatuses allInfo oldPod st cs = Except.error e := by
  intro cs
  induction cs with
  | nil =>
    rintro ⟨c, hc, -⟩
    exact absurd hc (List.not_mem_nil _)
  | cons c0 rest ih =>
    rintro ⟨c, hc, hbad⟩ st
    by_cases h0 : strStartsWith c0.containerID containerNamePrefix = true
    · have hcr : c ∈ rest := by
        rcases List.mem_cons.mp hc with rfl | h
        · rw [h0] at hbad; exact absurd hbad (by simp)
        · exact h
      rw [processStatuses, if_pos h0]
      cases hfound : statusFound allInfo c0 with
      | some info => exact ih ⟨c, hcr, hbad⟩ _
      | none => exact ih ⟨c, hcr, hbad⟩ _
    · rw [processStatuses, if_neg h0]
      exact ⟨_, rfl⟩

lemma processPods_error (allInfo : Store) (last : Finset String) :
    ∀ pods : List (Option Pod),
      (∃ p, some p ∈ pods ∧ ∃ c ∈ p.containerStatuses,
        strStartsWith c.containerID containerNamePrefix = false) →
      ∀ st, ∃ e, processPods allInfo last st pods = Except.error e := by
  intro pods
  induction pods with
  | nil =>
    rintro ⟨p, hp, -⟩
    exact absurd hp (List.not_mem_nil _)
  | cons hd rest ih =>
    rintro ⟨p, hp, hc⟩ st
    cases hd with
    | none =>
      rw [processPods]
      exact ih ⟨p, by simpa using hp, hc⟩ st
    | some q =>
      rcases List.mem_cons.mp hp with heq | hmem
      · have hpq : p = q := Option.some.inj heq
        subst hpq
        rcases processStatuses_error allInfo (decide (p.name ∈ last))
            p.containerStatuses hc
            { st with targetLen := st.targetLen + (p.specContainers.length : ℤ) }
          with ⟨e, he⟩
        rw [processPods, he]
        exact ⟨e, rfl⟩
      · rw [processPods]
        cases hres : processStatuses allInfo (decide (q.name ∈ last))
            { st with targetLen := st.targetLen + (q.specContainers.length : ℤ) }
            q.containerStatuses with
        | ok st1 => exact ih ⟨p, hmem, hc⟩ st1
        | error e => exact ⟨e, rfl⟩

/-- Claim C5: if any container status of any live pod carries a
runtime ID without the transport prefix, `doUpdate` returns
`(false, error)`, no gauge is written, and the tracked pod set is
unchanged for that cycle. -/
theorem prefixViolationAtomicity (tracked : Option (Finset String)) (allInfo : Store)
    (pods : List (Option Pod)) (p : Pod) (c : ContainerStatus)
    (hp : some p ∈ pods) (hc : c ∈ p.containerStatuses)
    (hbad : strStartsWith c.containerID containerNamePrefix = false) :
    (∃ e, doUpdate tracked allInfo pods = Except.error e)
    ∧ schedulerStep tracked allInfo pods = (tracked, none, none) := by
  rcases processPods_error allInfo (tracked.getD ∅) pods ⟨p, hp, c, hc, hbad⟩ initState
    with ⟨e, he⟩
  have hdo : doUpdate tracked allInfo pods = Except.error e := by
    unfold doUpdate
    rw [he]
  refine ⟨⟨e, hdo⟩, ?_⟩
  by_cases hsu : shouldUpdate tracked pods = true
  · unfold schedulerStep
    rw [if_pos hsu, hdo]
  · unfold schedulerStep
    rw [if_neg hsu]

/-- Concrete pod list for the C5 witness: one container not managed by
containerd. -/
def badPods : List (Option Pod) :=
  [some
    { name := "p1", nspace := "ns"
      specContainers := [{ name := "c" }]
      containerStatuses := [{ name := "c", containerID := "docker://x" }] }]

/-- Witness for C5 at a concrete input: a `docker://` container ID
aborts scoring with an error, writes nothing and leaves the tracked
pod set untouched. -/
theorem prefixViolationAtomicity_witness :
    strStartsWith "docker://x" containerNamePrefix = false
    ∧ (∃ e, doUpdate (some {"p1"}) emptyStore badPods = Except.error e)
    ∧ schedulerStep (some {"p1"}) emptyStore badPods =
        (some {"p1"}, none, none) := by
  have h := prefixViolationAtomicity (some {"p1"}) emptyStore badPods
    { name := "p1", nspace := "ns", specContainers := [{ name := "c" }],
      containerStatuses := [{ name := "c", containerID := "docker://x" }] }
    { name := "c", containerID := "docker://x" }
    (by simp [badPods]) (by simp) (by decide)
  exact ⟨by decide, h.1, h.2⟩

/-! ### Claim C9: tracked pod set update discipline -/

/-- Claim C9: the tracked pod set is overwritten with the current live
pod-name set exactly when the gate fired and `doUpdate` returned
`(true, nil)`; it is unchanged on `(false, nil)`, on an error, or when
the gate did not fire; and it is never deleted. -/
theorem trackedPodSetDiscipline (tracked : Option (Finset String)) (allInfo : Store)
    (pods : List (Option Pod)) :
    (∀ out, shouldUpdate tracked pods = true →
        doUpdate tracked allInfo pods = Except.ok out → out.updated = true →
        (schedulerStep tracked allInfo pods).1 = some (getPodNames pods))
    ∧ (∀ out, doUpdate tracked allInfo pods = Except.ok out → out.updated = false →
        (schedulerStep tracked allInfo pods).1 = tracked)
    ∧ (∀ e, doUpdate tracked allInfo pods = Except.error e →
        (schedulerStep tracked allInfo pods).1 = tracked)
    ∧ ((schedulerStep tracked allInfo pods).1 ≠ tracked →
        shouldUpdate tracked pods = true ∧
        ∃ out, doUpdate tracked allInfo pods = Except.ok out ∧ out.updated = true)
    ∧ ∀ s, tracked = some s → (schedulerStep tracked allInfo pods).1 ≠ none := by
  refine ⟨?_, ?_, ?_, ?_, ?_⟩
  · intro out hsu hdo hupd
    simp [schedulerStep, hsu, hdo, hupd]
  · intro out hdo hupd
    by_cases hsu : shouldUpdate tracked pods = true <;>
      simp [schedulerStep, hsu, hdo, hupd]
  · intro e hdo
    by_cases hsu : shouldUpdate tracked pods = true <;>
      simp [schedulerStep, hsu, hdo]
  · intro hch
    by_cases hsu : shouldUpdate tracked pods = true
    · cases hdo : doUpdate tracked allInfo pods with
      | error e => exact absurd (by simp [schedulerStep, hsu, hdo]) hch
      | ok out =>
        cases hupd : out.updated with
        | false => exact absurd (by simp [schedulerStep, hsu, hdo, hupd]) hch
        | true => exact ⟨hsu, out, hdo ▸ rfl, hupd⟩
    · exact absurd (by simp [schedulerStep, hsu]) hch
  · rintro s rfl
    by_cases hsu : shouldUpdate (some s) pods = true
    · cases hdo : doUpdate (some s) allInfo pods with
      | error e => simp [schedulerStep, hsu, hdo]
      | ok out =>
        cases hupd : out.updated with
        | false => simp [schedulerStep, hsu, hdo, hupd]
        | true => simp [schedulerStep, hsu, hdo, hupd]
    · simp [schedulerStep, hsu]

/-- Witness for C9 at a concrete input: a failing `doUpdate` leaves
the (absent) tracked pod set unchanged. -/
theorem trackedPodSetDiscipline_witness :
    doUpdate none emptyStore badPods =
      Except.error "container c (docker://x) is not running by containerd"
    ∧ (schedulerStep none emptyStore badPods).1 = none := by
  have hdo : doUpdate none emptyStore badPods =
      Except.error "container c (docker://x) is not running by containerd" := rfl
  exact ⟨hdo, (trackedPodSetDiscipline none emptyStore badPods).2.2.1 _ hdo⟩

/-! ### Claim C10: the completeness denominator counts spec containers -/

/-- Concrete store for C10: the single reported container is in the
store. -/
def gapStore : Store := fun m =>
  if m = { name := "x", nspace := "k8s.io" } then
    some { Name := "x", Namespace := "k8s.io", Start := 100, End := 150,
           infoType := "" }
  else none

/-- Concrete pod list for C10: the pod spec declares two containers
but only one container status is reported. -/
def gapPods : List (Option Pod) :=
  [some
    { name := "p1", nspace := "ns"
      specContainers := [{ name := "c1" }, { name := "c2" }]
      containerStatuses := [{ name := "c1", containerID := "containerd://x" }] }]

/-- Claim C10: `targetCount` counts spec-declared containers (2 here)
while only reported statuses are looked up (1 here, found), so
`receivedCount = 2 - 0 = targetCount` and `doUpdate` publishes, with
the average dividing the one reported container's latency (50) by the
larger spec count (2), yielding 25. -/
theorem specStatusCountGapPublishes :
    targetCount gapPods = 2
    ∧ ((livePods gapPods).map fun p => (p.containerStatuses.length : ℤ)).sum = 1
    ∧ unreceivedCount gapStore gapPods = 0
    ∧ totalOf gapStore gapPods = 50
    ∧ receivedCount gapStore gapPods = 2
    ∧ (∃ out, doUpdate none gapStore gapPods = Except.ok out
        ∧ out.updated = true
        ∧ out.avgWrite = some ((totalOf gapStore gapPods : ℚ) /
            (receivedCount gapStore gapPods : ℚ)))
    ∧ (totalOf gapStore gapPods : ℚ) / (receivedCount gapStore gapPods : ℚ) = 25 := by
  have h1 : totalOf gapStore gapPods = 50 := by decide
  have h2 : receivedCount gapStore gapPods = 2 := by decide
  have hok : doUpdate none gapStore gapPods =
      Except.ok
        { updated := true
          avgWrite := some ((totalOf gapStore gapPods : ℚ) /
            (receivedCount gapStore gapPods : ℚ))
          scaleWrite :=
            if windowEnd gapStore ((none : Option (Finset String)).getD ∅) gapPods >
                windowStart gapStore ((none : Option (Finset String)).getD ∅) gapPods then
              some (windowEnd gapStore ((none : Option (Finset String)).getD ∅) gapPods -
                windowStart gapStore ((none : Option (Finset String)).getD ∅) gapPods)
            else none } := by
    rw [doUpdate_spec none gapStore gapPods (by decide),
      if_neg (by decide), if_neg (by decide)]
  refine ⟨by decide, by decide, by decide, h1, h2, ⟨_, hok, rfl, rfl⟩, ?_⟩
  rw [h1, h2]
  norm_num

/-! ### Claim C1: first-write-wins ingestion -/

/-- Claim C1: starting from the empty store, after any sequence of
well-formed POST pushes the stored record at an identity is the FIRST
pushed record with that identity, every push in the sequence is
answered 200, and a push whose identity is already present leaves the
store unchanged (and is answered 200). -/
theorem firstWriteWins :
    (∀ (infos : List containerStartupInfo) (m : meta),
        (pushSeq emptyStore infos).1 m = infos.find? (fun i => infoMeta i == m)
        ∧ (pushSeq emptyStore infos).2 = infos.map fun _ => 200)
    ∧ ∀ (s : Store) (i r : containerStartupInfo), s (infoMeta i) = some r →
        receiveStartupInfo s methodPost (RequestBody.wellFormed i) = (s, 200) := by
  constructor
  · intro infos m
    exact ⟨pushSeq_store_of_none infos emptyStore m rfl,
      pushSeq_statuses infos emptyStore⟩
  · intro s i r h
    exact receiveStartupInfo_hit s i r h

/-- Concrete store for the C1 witness: identity (a, n) already holds
the record (1, 2). -/
def dupStore : Store := fun m =>
  if m = { name := "a", nspace := "n" } then
    some { Name := "a", Namespace := "n", Start := 1, End := 2, infoType := "" }
  else none

/-- Witness for C1 at concrete inputs: pushing (a,n) twice stores the
first record, and a duplicate push against a store that already holds
the identity changes nothing and is answered 200. -/
theorem firstWriteWins_witness :
    (pushSeq emptyStore
        [{ Name := "a", Namespace := "n", Start := 1, End := 2, infoType := "" },
         { Name := "a", Namespace := "n", Start := 3, End := 4, infoType := "" }]).1
      { name := "a", nspace := "n" }
      = some { Name := "a", Namespace := "n", Start := 1, End := 2, infoType := "" }
    ∧ dupStore (infoMeta
        { Name := "a", Namespace := "n", Start := 3, End := 4, infoType := "" })
      = some { Name := "a", Namespace := "n", Start := 1, End := 2, infoType := "" }
    ∧ receiveStartupInfo dupStore methodPost
        (RequestBody.wellFormed
          { Name := "a", Namespace := "n", Start := 3, End := 4, infoType := "" })
      = (dupStore, 200) := by
  refine ⟨?_, by decide, ?_⟩
  · rw [(firstWriteWins.1 _ _).1]
    decide
  · exact firstWriteWins.2 dupStore
      { Name := "a", Namespace := "n", Start := 3, End := 4, infoType := "" }
      { Name := "a", Namespace := "n", Start := 1, End := 2, infoType := "" }
      (by decide)

end StartupExporter
